import Mathlib

/-!
# Page behaviour controller (`static/js/main.js`)

A shallow embedding of the client-side script of the internship platform and
proofs about its behavioural contract.

Conventions of the embedding:

* DOM state is passed explicitly.  Every function that mutates the page takes
  the part of the page it touches and returns the new value.
* A JavaScript exception is a value of `JsError`; code that may throw returns
  `Except JsError _`, or the final state paired with the error when the state
  reached before the throw matters.
* Platform built-ins whose behaviour is fixed by the browser and not by this
  script (`String.prototype.localeCompare`, `JSON.parse`, `JSON.stringify`)
  are parameters of the functions that call them.
* Time is a natural number of milliseconds; a timer created by `setTimeout`
  is represented by its deadline and runs exactly at that deadline.
-/

namespace MainJs

/-- The exceptions the modelled code can raise. -/
inductive JsError where
  | typeError (msg : String)
  | syntaxError (msg : String)
  | invalidStateError (msg : String)
  deriving DecidableEq, Repr

/-! ## Strings -/

/-- The characters removed by `String.prototype.trim`: ECMAScript WhiteSpace
and LineTerminator code points. -/
def isJsWhiteSpace (c : Char) : Bool :=
  let n := c.toNat
  n = 0x09 || n = 0x0A || n = 0x0B || n = 0x0C || n = 0x0D || n = 0x20 ||
  n = 0xA0 || n = 0x1680 || (0x2000 ≤ n && n ≤ 0x200A) || n = 0x2028 ||
  n = 0x2029 || n = 0x202F || n = 0x205F || n = 0x3000 || n = 0xFEFF

/-- The method `s.trim()`: strip leading and trailing white space. -/
def jsTrim (s : String) : String :=
  String.mk ((s.toList.dropWhile isJsWhiteSpace).reverse.dropWhile isJsWhiteSpace).reverse

/-! ## Table sorting (`sortTable`, lines 279-297) -/

/-- A table cell, observed through its `textContent`. -/
structure Cell where
  textContent : String
  deriving DecidableEq, Repr

/-- A `tr` element, observed through its `children`. -/
structure Row where
  children : List Cell
  deriving DecidableEq, Repr

/-- A `table` element.  `tbody` is the result of `table.querySelector('tbody')`
(`none` when the table has no body), given by the `tr` elements that
`tbody.querySelectorAll('tr')` finds, in document order.  These rows are the
children of the body: a table nested inside a cell is not modelled. -/
structure Table where
  tbody : Option (List Row)
  deriving DecidableEq, Repr

/-- The body rows of a table: the rows of its `tbody`, none when it has no body. -/
def Table.bodyRows (table : Table) : List Row :=
  table.tbody.getD []

/-- A DOM node together with its identity.  The rows of a body are numbered
by their position when `sortTable` starts; two nodes are the same node exactly
when their numbers agree. -/
abbrev RowNode := Nat × Row

/-- The expression `row.children[column].textContent.trim()`.  Reading `textContent` of
`undefined` raises a `TypeError` when the row has no cell at that index. -/
def cellKey (column : Nat) (row : Row) : Except JsError String :=
  match row.children.get? column with
  | some cell => .ok (jsTrim cell.textContent)
  | none => .error (.typeError "Cannot read properties of undefined (reading 'textContent')")

/-- The comparison function handed to `rows.sort` (lines 283-292). -/
def compareRows (localeCompare : String → String → Int) (column : Nat)
    (direction : String) (a b : RowNode) : Except JsError Int := do
  let aVal ← cellKey column a.2
  let bVal ← cellKey column b.2
  if direction = "asc" then
    pure (localeCompare aVal bVal)
  else
    pure (localeCompare bVal aVal)

/-- Insert `a` in front of the first element it does not compare greater than. -/
def insertSorted {α : Type} (cmp : α → α → Except JsError Int) (a : α) :
    List α → Except JsError (List α)
  | [] => pure [a]
  | b :: l => do
    let c ← cmp a b
    if c ≤ 0 then
      pure (a :: b :: l)
    else do
      let l' ← insertSorted cmp a l
      pure (b :: l')

/-- The method `Array.prototype.sort` with a comparison function: a stable sort, here a
stable insertion sort.  The comparison function is called only when the array
has at least two elements, and an exception it raises aborts the sort. -/
def arraySort {α : Type} (cmp : α → α → Except JsError Int) :
    List α → Except JsError (List α)
  | [] => pure []
  | a :: l => do
    let sorted ← arraySort cmp l
    insertSorted cmp a sorted

/-- The call `parent.appendChild(node)`: a node that is already a child is first removed
from its position, then the node becomes the last child. -/
def appendChild (children : List RowNode) (node : RowNode) : List RowNode :=
  children.filter (fun c => c.1 ≠ node.1) ++ [node]

/-- The function `sortTable(table, column, direction)`.  Returns the table as it is when the
call ends and the exception the call ended with, if any.  The rows are sorted
in a separate array, so an exception leaves the table as it was. -/
def sortTable (localeCompare : String → String → Int) (table : Table) (column : Nat)
    (direction : String) : Table × Option JsError :=
  match table.tbody with
  | none => (table, some (.typeError "Cannot read properties of null (reading 'querySelectorAll')"))
  | some trs =>
    let rows : List RowNode := trs.enum
    match arraySort (compareRows localeCompare column direction) rows with
    | .error e => (table, some e)
    | .ok sorted =>
      ({ tbody := some ((sorted.foldl appendChild rows).map Prod.snd) }, none)

/-- What the ECMAScript specification calls a consistent comparison function:
the sign of `cmp a b` is opposite to that of `cmp b a`, and "not greater" is
transitive. -/
structure ConsistentComparator (cmp : String → String → Int) : Prop where
  antisymm : ∀ a b, cmp a b < 0 ↔ 0 < cmp b a
  trans : ∀ a b c, cmp a b ≤ 0 → cmp b c ≤ 0 → cmp a c ≤ 0

/-- Comparison of two strings by code point, a locale-independent collation. -/
def compareChars : List Char → List Char → Int
  | [], [] => 0
  | [], _ :: _ => -1
  | _ :: _, [] => 1
  | a :: as, b :: bs =>
    if a.toNat < b.toNat then -1
    else if b.toNat < a.toNat then 1
    else compareChars as bs

/-- A reference collation: code point order. -/
def codePointCompare (a b : String) : Int :=
  compareChars a.toList b.toList

/-- The sort key of a row whose cell exists, the empty string otherwise. -/
def keyOf (column : Nat) (row : Row) : String :=
  match cellKey column row with
  | .ok k => k
  | .error _ => ""

/-- The row order `sortTable` establishes for a direction: key order for
`'asc'`, reversed key order for any other direction. -/
def rowOrder (localeCompare : String → String → Int) (column : Nat) (direction : String)
    (a b : Row) : Int :=
  if direction = "asc" then localeCompare (keyOf column a) (keyOf column b)
  else localeCompare (keyOf column b) (keyOf column a)

/-- A one-column table whose body rows hold the given texts. -/
def columnTable (texts : List String) : Table :=
  { tbody := some (texts.map (fun t => { children := [{ textContent := t }] })) }

/-! ## The page -/

/-- A DOM node.  `markup` is content assigned through `innerHTML`, kept as the
string the script wrote. -/
inductive Node where
  | element (tagName : String) (className : String) (children : List Node)
  | text (data : String)
  | markup (html : String)
  deriving Repr

/-- The characters that separate the tokens of a `class` attribute. -/
def isAsciiWhitespace (c : Char) : Bool :=
  c = ' ' || c = '\t' || c = '\n' || c = '\x0c' || c = '\r'

/-- Split on ASCII white space; `cur` is the token being read, reversed. -/
def splitTokens : List Char → List Char → List (List Char)
  | [], cur => if cur = [] then [] else [cur.reverse]
  | c :: cs, cur =>
    if isAsciiWhitespace c then
      (if cur = [] then splitTokens cs [] else cur.reverse :: splitTokens cs [])
    else splitTokens cs (c :: cur)

/-- The class list of an element with the given `className`. -/
def classTokens (className : String) : List String :=
  (splitTokens className.toList []).map String.mk

mutual
/-- The first element with class `cls` among a node and its descendants, in
document order.  Unparsed markup written by the script is not searched. -/
def Node.findClass (cls : String) : Node → Option Node
  | .element tagName className children =>
    if cls ∈ classTokens className then some (.element tagName className children)
    else findClassIn cls children
  | .text _ => none
  | .markup _ => none
/-- The call `parent.querySelector('.' + cls)` over the children of `parent`. -/
def findClassIn (cls : String) : List Node → Option Node
  | [] => none
  | n :: ns =>
    match n.findClass cls with
    | some m => some m
    | none => findClassIn cls ns
end

/-- Whether the node is an element carrying class `cls`. -/
def Node.hasClass (cls : String) : Node → Bool
  | .element _ className _ => cls ∈ classTokens className
  | _ => false

/-- The form found by `document.querySelector('.card form')`. -/
structure FormElement where
  stylePosition : String
  children : List Node
  deriving Repr

/-- The parts of the document the script reads and writes: the children of the
first `.container` element and the first form inside a `.card`; each is `none`
when the page has no such element. -/
structure Document where
  container : Option (List Node)
  filterForm : Option FormElement
  deriving Repr

/-- The alert banners on the page. -/
def Document.alerts (doc : Document) : List Node :=
  (doc.container.getD []).filter (Node.hasClass "alert")

/-- The banner element built by `showNotification` (lines 198-203). -/
def alertDiv (message type : String) : Node :=
  .element "div" ("alert alert-" ++ type ++ " alert-dismissible fade show")
    [.markup ("\n        " ++ message ++
      "\n        <button type=\"button\" class=\"btn-close\" data-bs-dismiss=\"alert\"></button>\n    ")]

/-- The function `showNotification(message, type = 'info')`: the banner becomes the first
child of the container; nothing is shown on a page without a container.  The
timer that closes the banner after five seconds is outside this state. -/
def showNotification (doc : Document) (message : String) (type : Option String) : Document :=
  match doc.container with
  | some children =>
    { doc with container := some (alertDiv message (type.getD "info") :: children) }
  | none => doc

/-- The spinner element built by `showLoadingIndicator` (lines 167-169). -/
def spinner : Node :=
  .element "div" "filter-loading position-absolute top-50 start-50 translate-middle"
    [.markup "<div class=\"spinner-border spinner-border-sm text-primary\" role=\"status\"><span class=\"visually-hidden\">Filtering...</span></div>"]

/-- The function `showLoadingIndicator()` (lines 161-174). -/
def showLoadingIndicator (doc : Document) : Document :=
  match doc.filterForm with
  | some filterForm =>
    match findClassIn "filter-loading" filterForm.children with
    | none =>
      { doc with
        filterForm := some ⟨"relative", filterForm.children ++ [spinner]⟩ }
    | some _ => doc
  | none => doc

/-! ## File-size guard (`validateFileSize`, lines 309-320) -/

/-- A chosen file. -/
structure File where
  name : String
  size : Nat
  deriving DecidableEq, Repr

/-- An `input type="file"` element. -/
structure FileInput where
  value : String
  files : List File
  deriving DecidableEq, Repr

/-- What a call of `validateFileSize` leaves behind. -/
structure ValidateResult where
  returned : Bool
  input : FileInput
  doc : Document
  deriving Repr

/-- The function `validateFileSize(input, maxSizeMB = 16)`.  `file.size` is an integer and the
division by `1024 * 1024` is exact, so `sizeMB` is a rational number.
`numberToString` is the conversion of a number to a string in the template
literal.  Assigning the empty string to the value of a file input also empties
its file list. -/
def validateFileSize (numberToString : ℚ → String) (doc : Document) (input : FileInput)
    (maxSizeMB : Option ℚ) : ValidateResult :=
  let maxSizeMB := maxSizeMB.getD 16
  match input.files.head? with
  | some file =>
    let sizeMB : ℚ := (file.size : ℚ) / (1024 * 1024)
    if sizeMB > maxSizeMB then
      { returned := false,
        input := { value := "", files := [] },
        doc := showNotification doc
          ("File size must be less than " ++ numberToString maxSizeMB ++ "MB") (some "danger") }
    else
      { returned := true, input := input, doc := doc }
  | none => { returned := true, input := input, doc := doc }

/-- Number-to-string conversion restricted to integer-valued numbers: the
decimal numeral of the numerator. -/
def integerToString (q : ℚ) : String :=
  toString q.num

/-! ## Status update client (`updateApplicationStatus`, lines 138-159) -/

/-- A JavaScript value as this script observes it: through `ToBoolean`, when
it is the condition of an `if`, and through `ToString`, when it is assigned to
the `value` of an input. -/
structure JsValue where
  truthy : Bool
  text : String
  deriving DecidableEq, Repr

/-- The boolean `true`. -/
def JsValue.true : JsValue := { truthy := Bool.true, text := "true" }

/-- A string value: truthy unless empty. -/
def JsValue.ofString (s : String) : JsValue := { truthy := decide (s ≠ ""), text := s }

/-- A value produced by parsing JSON: `null`, or a value on which property
reads succeed, given by the properties visible on it, own properties first
and inherited ones after them. -/
inductive JsData where
  | null
  | object (props : List (String × JsValue))
  deriving DecidableEq, Repr

/-- The property read `data[name]`: a `TypeError` on `null`, `undefined` (here `none`) when the
property is missing. -/
def JsData.get (data : JsData) (name : String) : Except JsError (Option JsValue) :=
  match data with
  | .null => .error (.typeError "Cannot read properties of null")
  | .object props => .ok (props.lookup name)

/-- The conversion `ToBoolean` of a property read: `undefined` is falsy. -/
def isTruthy (v : Option JsValue) : Bool :=
  match v with
  | some v => v.truthy
  | none => false

/-- How the request of `updateApplicationStatus` ends: `fetch` rejects, or a
response arrives whose body `response.json()` either rejects or parses. -/
inductive RequestOutcome where
  | networkError
  | notJson
  | json (data : JsData)
  deriving DecidableEq, Repr

/-- A request handed to `fetch`. -/
structure FetchRequest where
  url : String
  method : String
  body : List (String × String)
  deriving DecidableEq, Repr

/-- What a call of `updateApplicationStatus` leaves behind once its promise
chain has settled. -/
structure UpdateResult where
  request : FetchRequest
  doc : Document
  console : List String
  deriving Repr

/-- The callback `data => { ... }` of lines 148-154. -/
def statusResponse (doc : Document) (data : JsData) : Except JsError Document := do
  let success ← data.get "success"
  if isTruthy success then
    pure (showNotification doc "Status updated successfully" (some "success"))
  else
    pure (showNotification doc "Error updating status" (some "danger"))

/-- The function `updateApplicationStatus(applicationId, status)` with the outcome of its
request.  An exception in the chain is raised before anything is shown, so the
`catch` callback runs on the document as it was. -/
def updateApplicationStatus (doc : Document) (applicationId status : String)
    (outcome : RequestOutcome) : UpdateResult :=
  let formData := [("status", status), ("send_notification", "on")]
  let request : FetchRequest :=
    { url := "/applications/" ++ applicationId ++ "/update_status",
      method := "POST", body := formData }
  let settled : Except JsError Document :=
    match outcome with
    | .networkError => .error (.typeError "Failed to fetch")
    | .notJson => .error (.syntaxError "Unexpected token")
    | .json data => statusResponse doc data
  match settled with
  | .ok doc' => { request := request, doc := doc', console := [] }
  | .error _ =>
    { request := request,
      doc := showNotification doc "Error updating status" (some "danger"),
      console := ["Error:"] }

/-- The response carries a `success` property that is truthy. -/
def successFlagged (outcome : RequestOutcome) : Bool :=
  match outcome with
  | .json (.object props) => isTruthy (props.lookup "success")
  | _ => false

/-- The response is a JSON object whose `success` property is the boolean
`true`. -/
def flaggedSuccessTrue (outcome : RequestOutcome) : Bool :=
  match outcome with
  | .json (.object props) => decide (props.lookup "success" = some JsValue.true)
  | _ => false

/-! ## Form validation gate (lines 26-35) -/

/-- The flags of a `submit` event that listeners can set. -/
structure SubmitEvent where
  defaultPrevented : Bool
  propagationStopped : Bool
  deriving DecidableEq, Repr

/-- A `.needs-validation` form: the result `form.checkValidity()` returns for
its current field values, and its class list. -/
structure ValidatedForm where
  checkValidity : Bool
  classList : List String
  deriving DecidableEq, Repr

/-- The call `classList.add(token)`: the token is appended unless already present. -/
def classListAdd (classList : List String) (token : String) : List String :=
  if token ∈ classList then classList else classList ++ [token]

/-- The `submit` listener of lines 28-34. -/
def validationSubmitListener (form : ValidatedForm) (event : SubmitEvent) :
    ValidatedForm × SubmitEvent :=
  let event' : SubmitEvent :=
    if !form.checkValidity then
      { defaultPrevented := true, propagationStopped := true }
    else event
  ({ form with classList := classListAdd form.classList "was-validated" }, event')

/-! ## Debounced auto-filter (lines 61-75) -/

/-- A `.search-input` element as the timer callback reads it: whether
`input.closest('form')` finds a form, and its `data-auto-filter` attribute. -/
structure SearchInput where
  closestForm : Bool
  autoFilter : Option String
  deriving DecidableEq, Repr

/-- The state of one debounced input: the deadline of the timer behind
`timeoutId` while that timer is pending, the page, and the times at which
`form.submit()` ran. -/
structure DebounceState where
  timeoutId : Option Nat
  doc : Document
  submissions : List Nat
  deriving Repr

/-- The two kinds of event of the debounce listener, with the time at which
each happens. -/
inductive DebounceEvent where
  | keystroke (now : Nat)
  | timerFire (now : Nat)
  deriving DecidableEq, Repr

/-- The callback handed to `setTimeout` (lines 66-73), run at time `now`. -/
def timerCallback (input : SearchInput) (now : Nat) (s : DebounceState) : DebounceState :=
  if input.closestForm && input.autoFilter = some "true" then
    { s with doc := showLoadingIndicator s.doc, submissions := s.submissions ++ [now] }
  else s

/-- One step of the debounce listener.  A keystroke clears the pending timer
and arms a new one 300ms ahead under the same handle; a timer fire runs the
callback and leaves no timer pending. -/
def debounceStep (input : SearchInput) (s : DebounceState) : DebounceEvent → DebounceState
  | .keystroke now => { s with timeoutId := some (now + 300) }
  | .timerFire now => timerCallback input now { s with timeoutId := none }

/-- Let the pending timer fire if its deadline has been reached at time `now`. -/
def fireDue (input : SearchInput) (now : Nat) (s : DebounceState) : DebounceState :=
  match s.timeoutId with
  | some deadline => if deadline ≤ now then debounceStep input s (.timerFire deadline) else s
  | none => s

/-- Run the input events that happen at the given times, in order; a timer
whose deadline has been reached fires before the next event is handled. -/
def runKeystrokes (input : SearchInput) : List Nat → DebounceState → DebounceState
  | [], s => s
  | now :: rest, s =>
    runKeystrokes input rest (debounceStep input (fireDue input now s) (.keystroke now))

/-- Let time pass after the last event until no timer is pending. -/
def settle (input : SearchInput) (s : DebounceState) : DebounceState :=
  match s.timeoutId with
  | some deadline => debounceStep input s (.timerFire deadline)
  | none => s

/-- The state when the listener is attached: no timer, nothing submitted. -/
def DebounceState.initial (doc : Document) : DebounceState :=
  { timeoutId := none, doc := doc, submissions := [] }

/-! ## Submit-loading guard (lines 218-238) -/

/-- The submit button of a form. -/
structure Button where
  innerHTML : String
  disabled : Bool
  deriving DecidableEq, Repr

/-- A form under the submit-loading guard: the button found by
`formElement.querySelector('button[type="submit"]')`, and the pending timers of
`submitFormWithLoading`, each with its deadline and the `originalText` its
callback captured, oldest first. -/
structure GuardedForm where
  submitBtn : Option Button
  timers : List (Nat × String)
  deriving DecidableEq, Repr

/-- The label shown while the guard is active (line 222). -/
def processingLabel : String :=
  "<span class=\"spinner-border spinner-border-sm me-2\"></span>Processing..."

/-- The function `submitFormWithLoading(formElement)` called at time `now`. -/
def submitFormWithLoading (now : Nat) (form : GuardedForm) : GuardedForm :=
  match form.submitBtn with
  | some submitBtn =>
    let originalText := submitBtn.innerHTML
    { submitBtn := some { innerHTML := processingLabel, disabled := true },
      timers := form.timers ++ [(now + 3000, originalText)] }
  | none => form

/-- The callback of lines 226-229 with its captured `originalText`. -/
def restoreButton (submitBtn : Option Button) (timer : Nat × String) : Option Button :=
  submitBtn.map (fun _ => { innerHTML := timer.2, disabled := false })

/-- The document-level `submit` listener (lines 234-238) at time `now`. -/
def documentSubmitListener (tagName : String) (now : Nat) (form : GuardedForm) : GuardedForm :=
  if tagName = "FORM" then submitFormWithLoading now form else form

/-- Fire, oldest first, the timers whose deadline has been reached at `now`. -/
def fireDueTimers (now : Nat) (form : GuardedForm) : GuardedForm :=
  { submitBtn := (form.timers.filter (fun t => t.1 ≤ now)).foldl restoreButton form.submitBtn,
    timers := form.timers.filter (fun t => now < t.1) }

/-- Fire every pending timer, oldest first. -/
def fireAllTimers (form : GuardedForm) : GuardedForm :=
  { submitBtn := form.timers.foldl restoreButton form.submitBtn, timers := [] }

/-- Submit events on the form at the given times, in order; timers that are
due fire before the next event is handled. -/
def runSubmits : List Nat → GuardedForm → GuardedForm
  | [], form => form
  | now :: rest, form =>
    runSubmits rest (documentSubmitListener "FORM" now (fireDueTimers now form))

/-! ## Draft auto-save (`autoSaveForm`, lines 323-356) -/

/-- A form control matched by `'input, textarea, select'`: its `name`, its
`type` ("text", "file", "textarea", "select-one", ...) and its `value`.  The
value of a file input is the empty string while no file is chosen.  A control
of another type that adjusts what it is assigned (a text input drops line
breaks, a select takes only the value of one of its options) is considered at
the values it reports itself, on which assignment stores the string as it
is. -/
structure Field where
  name : String
  type : String
  value : String
  deriving DecidableEq, Repr

/-- The entries of `localStorage`. -/
abbrev Storage := List (String × String)

/-- The call `localStorage.getItem(key)`; `none` is `null`. -/
def getItem (storage : Storage) (key : String) : Option String :=
  storage.lookup key

/-- The call `localStorage.removeItem(key)`. -/
def removeItem (storage : Storage) (key : String) : Storage :=
  storage.filter (fun entry => entry.1 ≠ key)

/-- The call `localStorage.setItem(key, value)`. -/
def setItem (storage : Storage) (key value : String) : Storage :=
  (key, value) :: removeItem storage key

/-- Define the own property `key` of an object given by its own properties:
an existing property keeps its place and takes the new value, a new one is
added at the end. -/
def defineProp {β : Type} (obj : List (String × β)) (key : String) (value : β) :
    List (String × β) :=
  match obj with
  | [] => [(key, value)]
  | (k, v) :: rest =>
    if k = key then (k, value) :: rest else (k, v) :: defineProp rest key value

/-- The assignment `obj[key] = value` of a string to a property of a plain
object.  The name `__proto__` reaches the setter inherited from
`Object.prototype`, which ignores a string, so the object is unchanged; every
other name becomes an own property. -/
def setProp (obj : List (String × String)) (key : String) (value : String) :
    List (String × String) :=
  if key = "__proto__" then obj else defineProp obj key value

/-- The platform's JSON functions as `autoSaveForm` uses them: `stringify` on
an object with string members, and `parse`, where `none` stands for the
`SyntaxError` raised on text that is not well-formed JSON. -/
structure JsonApi where
  stringify : List (String × String) → String
  parse : String → Option JsData

/-- The platform reads a field map back as written: the text `stringify`
gives for it is not empty, and `parse` turns that text into a value on which
every member of the map is read with its string value. -/
def ReadsBack (json : JsonApi) (data : List (String × String)) : Prop :=
  json.stringify data ≠ "" ∧
  ∃ props, json.parse (json.stringify data) = some (.object props) ∧
    ∀ member ∈ data, props.lookup member.1 = some (JsValue.ofString member.2)

/-- The field map built by the `input` listener (lines 344-347). -/
def collectFields (inputs : List Field) : List (String × String) :=
  inputs.foldl (fun data inp => setProp data inp.name inp.value) []

/-- The `input` listener (lines 343-349): save the whole field map. -/
def inputListener (json : JsonApi) (inputs : List Field) (storageKey : String)
    (storage : Storage) : Storage :=
  setItem storage storageKey (json.stringify (collectFields inputs))

/-- The `submit` listener (lines 353-355). -/
def submitListener (storageKey : String) (storage : Storage) : Storage :=
  removeItem storage storageKey

/-- The assignment `input.value = text`.  On a file input every string but the
empty one raises an `InvalidStateError`; any other control takes the string. -/
def setInputValue (input : Field) (text : String) : Except JsError Field :=
  if input.type = "file" ∧ text ≠ "" then
    .error (.invalidStateError "a file input accepts only the empty string")
  else
    .ok { input with value := text }

/-- The body of the `forEach` of lines 331-335 for one input. -/
def restoreField (data : JsData) (input : Field) : Except JsError Field := do
  let saved ← data.get input.name
  if isTruthy saved then
    match saved with
    | some v => setInputValue input v.text
    | none => pure input
  else
    pure input

/-- The `forEach` of lines 331-335: the inputs as they are when the loop ends,
and the exception that ended it, if any.  An exception leaves the inputs
before it assigned and the input that raised it and those after it as they
were. -/
def restoreInputs (data : JsData) : List Field → List Field × Option JsError
  | [] => ([], none)
  | input :: rest =>
    match restoreField data input with
    | .error e => (input :: rest, some e)
    | .ok input' =>
      let after := restoreInputs data rest
      (input' :: after.1, after.2)

/-- The body of the `try` block (lines 330-335): the inputs as they are when
the block ends, and the exception that ended it, if any. -/
def loadSavedData (json : JsonApi) (inputs : List Field) (savedData : String) :
    List Field × Option JsError :=
  match json.parse savedData with
  | none => (inputs, some (.syntaxError "JSON.parse"))
  | some data => restoreInputs data inputs

/-- The fields after the load step of `autoSaveForm`, and what it logged. -/
structure AutoSaveResult where
  inputs : List Field
  console : List String
  deriving DecidableEq, Repr

/-- The load step of `autoSaveForm(formElement, storageKey)` (lines 324-339).
The listeners it then attaches are `inputListener` and `submitListener`.  An
exception inside the `try` block is caught and logged, and the inputs stay as
they were when it was raised. -/
def autoSaveForm (json : JsonApi) (inputs : List Field) (storageKey : String)
    (storage : Storage) : AutoSaveResult :=
  match getItem storage storageKey with
  | some savedData =>
    if savedData ≠ "" then
      match loadSavedData json inputs savedData with
      | (inputs', none) => { inputs := inputs', console := [] }
      | (inputs', some _) =>
        { inputs := inputs', console := ["Error loading saved form data:"] }
    else { inputs := inputs, console := [] }
  | none => { inputs := inputs, console := [] }

/-! ### A reference JSON implementation for drafts

`draftJson` serialises a field map the way `JSON.stringify` serialises an
object with string members, and reads back JSON objects whose members are
strings.  It instantiates the platform parameter at concrete drafts. -/

/-- The lower-case hexadecimal digit of a number below 16. -/
def hexChar (n : Nat) : Char :=
  if n < 10 then Char.ofNat (48 + n) else Char.ofNat (87 + n)

/-- The JSON escape of one character inside a string literal. -/
def escapeChar (c : Char) : List Char :=
  if c = '"' then ['\\', '"']
  else if c = '\\' then ['\\', '\\']
  else if c = '\x08' then ['\\', 'b']
  else if c = '\x0c' then ['\\', 'f']
  else if c = '\n' then ['\\', 'n']
  else if c = '\r' then ['\\', 'r']
  else if c = '\t' then ['\\', 't']
  else if c.toNat < 0x20 then ['\\', 'u', '0', '0', hexChar (c.toNat / 16), hexChar (c.toNat % 16)]
  else [c]

/-- A string as a JSON string literal. -/
def quoteJson (s : String) : List Char :=
  '"' :: (s.toList.flatMap escapeChar ++ ['"'])

/-- The members of an object, separated by commas. -/
def stringifyMembers : List (String × String) → List Char
  | [] => []
  | [(k, v)] => quoteJson k ++ ':' :: quoteJson v
  | (k, v) :: rest => quoteJson k ++ ':' :: quoteJson v ++ ',' :: stringifyMembers rest

/-- The function `JSON.stringify` on an object with string members. -/
def stringifyDraft (data : List (String × String)) : String :=
  String.mk ('\x7b' :: (stringifyMembers data ++ ['\x7d']))

/-- The value of a hexadecimal digit. -/
def hexValue (c : Char) : Option Nat :=
  if '0' ≤ c ∧ c ≤ '9' then some (c.toNat - 48)
  else if 'a' ≤ c ∧ c ≤ 'f' then some (c.toNat - 87)
  else if 'A' ≤ c ∧ c ≤ 'F' then some (c.toNat - 55)
  else none

/-- The character denoted by a single-character escape. -/
def unescapeChar (c : Char) : Option Char :=
  if c = '"' then some '"'
  else if c = '\\' then some '\\'
  else if c = '/' then some '/'
  else if c = 'b' then some '\x08'
  else if c = 'f' then some '\x0c'
  else if c = 'n' then some '\n'
  else if c = 'r' then some '\r'
  else if c = 't' then some '\t'
  else none

/-- Read a string literal after its opening quote: the decoded characters and
the rest of the input.  Escapes of surrogate code units are not handled. -/
def readString : Nat → List Char → Option (List Char × List Char)
  | 0, _ => none
  | _ + 1, [] => none
  | fuel + 1, c :: rest =>
    if c = '"' then some ([], rest)
    else if c = '\\' then
      match rest with
      | 'u' :: h1 :: h2 :: h3 :: h4 :: rest' =>
        match hexValue h1, hexValue h2, hexValue h3, hexValue h4 with
        | some a, some b, some c', some d =>
          let code := ((a * 16 + b) * 16 + c') * 16 + d
          if 0xD800 ≤ code ∧ code ≤ 0xDFFF then none
          else (readString fuel rest').map (fun r => (Char.ofNat code :: r.1, r.2))
        | _, _, _, _ => none
      | e :: rest' =>
        match unescapeChar e with
        | some ch => (readString fuel rest').map (fun r => (ch :: r.1, r.2))
        | none => none
      | [] => none
    else if c.toNat < 0x20 then none
    else (readString fuel rest).map (fun r => (c :: r.1, r.2))

/-- Skip JSON white space. -/
def skipWs (cs : List Char) : List Char :=
  cs.dropWhile (fun c => c = ' ' || c = '\t' || c = '\n' || c = '\r')

/-- Read the members of an object, the input standing at the opening quote of
a member name; a repeated name overwrites the earlier member. -/
def readMembers : Nat → List Char → List (String × JsValue) →
    Option (List (String × JsValue))
  | 0, _, _ => none
  | fuel + 1, cs, acc =>
    match cs with
    | '"' :: r0 =>
      match readString r0.length r0 with
      | some (k, r1) =>
        match skipWs r1 with
        | ':' :: r2 =>
          match skipWs r2 with
          | '"' :: r3 =>
            match readString r3.length r3 with
            | some (v, r4) =>
              let acc' := defineProp acc (String.mk k) (JsValue.ofString (String.mk v))
              match skipWs r4 with
              | ',' :: r5 => readMembers fuel (skipWs r5) acc'
              | '\x7d' :: r5 => if skipWs r5 = [] then some acc' else none
              | _ => none
            | none => none
          | _ => none
        | _ => none
      | none => none
    | _ => none

/-- A function member of `Object.prototype`: truthy, with the text common
engines give a built-in function. -/
def nativeFunction (name : String) : String × JsValue :=
  (name, { truthy := true, text := "function " ++ name ++ "() \x7b [native code] \x7d" })

/-- The properties every plain object inherits from `Object.prototype`.  The
accessor `__proto__` reads as the prototype object itself. -/
def objectPrototypeMembers : List (String × JsValue) :=
  [("__proto__", { truthy := true, text := "[object Object]" }),
   ("constructor", { truthy := true, text := "function Object() \x7b [native code] \x7d" }),
   nativeFunction "__defineGetter__", nativeFunction "__defineSetter__",
   nativeFunction "hasOwnProperty", nativeFunction "__lookupGetter__",
   nativeFunction "__lookupSetter__", nativeFunction "isPrototypeOf",
   nativeFunction "propertyIsEnumerable", nativeFunction "toString",
   nativeFunction "valueOf", nativeFunction "toLocaleString"]

/-- The function `JSON.parse` on the text of an object with string members:
the members read become own properties, in front of the inherited ones. -/
def parseDraft (text : String) : Option JsData :=
  match skipWs text.toList with
  | '\x7b' :: r =>
    match skipWs r with
    | '\x7d' :: r' =>
      if skipWs r' = [] then some (.object objectPrototypeMembers) else none
    | r' =>
      (readMembers r'.length r' []).map (fun own => .object (own ++ objectPrototypeMembers))
  | _ => none

/-- The reference JSON implementation. -/
def draftJson : JsonApi :=
  { stringify := stringifyDraft, parse := parseDraft }

/-! # Theorems -/

/-! ## Table sorting -/

section ArraySort

variable {α : Type} (cmp : α → α → Except JsError Int) (f : α → α → Int)

theorem insertSorted_spec (a : α) (l : List α)
    (hcmp : ∀ b ∈ l, cmp a b = .ok (f a b))
    (htotal : ∀ x y, ¬ f x y ≤ 0 → f y x ≤ 0)
    (htrans : ∀ x y z, f x y ≤ 0 → f y z ≤ 0 → f x z ≤ 0)
    (hsorted : l.Pairwise (fun x y => f x y ≤ 0)) :
    ∃ l', insertSorted cmp a l = .ok l' ∧ l'.Perm (a :: l) ∧
      l'.Pairwise (fun x y => f x y ≤ 0) := by
  induction l with
  | nil => exact ⟨[a], rfl, List.Perm.refl _, List.pairwise_singleton _ _⟩
  | cons b l ih =>
    have hb : cmp a b = .ok (f a b) := hcmp b (List.mem_cons_self _ _)
    rw [List.pairwise_cons] at hsorted
    by_cases hle : f a b ≤ 0
    · refine ⟨a :: b :: l, ?_, List.Perm.refl _, ?_⟩
      · simp [insertSorted, hb, hle, bind, Except.bind, pure, Except.pure]
      · refine List.pairwise_cons.2 ⟨?_, List.pairwise_cons.2 hsorted⟩
        intro y hy
        rcases List.mem_cons.1 hy with rfl | hy
        · exact hle
        · exact htrans _ _ _ hle (hsorted.1 y hy)
    · obtain ⟨l', hl', hperm, hs⟩ :=
        ih (fun c hc => hcmp c (List.mem_cons_of_mem _ hc)) hsorted.2
      refine ⟨b :: l', ?_, ?_, ?_⟩
      · simp [insertSorted, hb, hle, hl', bind, Except.bind, pure, Except.pure]
      · exact (List.Perm.cons b hperm).trans (List.Perm.swap a b l)
      · refine List.pairwise_cons.2 ⟨?_, hs⟩
        intro y hy
        rcases List.mem_cons.1 (hperm.subset hy) with rfl | hy
        · exact htotal _ _ hle
        · exact hsorted.1 y hy

theorem arraySort_spec (l : List α)
    (hcmp : ∀ a ∈ l, ∀ b ∈ l, cmp a b = .ok (f a b))
    (htotal : ∀ x y, ¬ f x y ≤ 0 → f y x ≤ 0)
    (htrans : ∀ x y z, f x y ≤ 0 → f y z ≤ 0 → f x z ≤ 0) :
    ∃ l', arraySort cmp l = .ok l' ∧ l'.Perm l ∧ l'.Pairwise (fun x y => f x y ≤ 0) := by
  induction l with
  | nil => exact ⟨[], rfl, List.Perm.refl _, List.Pairwise.nil⟩
  | cons a l ih =>
    obtain ⟨s, hs, hperm, hsorted⟩ :=
      ih (fun x hx y hy => hcmp x (List.mem_cons_of_mem _ hx) y (List.mem_cons_of_mem _ hy))
    obtain ⟨l', hl', hperm', hsorted'⟩ := insertSorted_spec cmp f a s
      (fun b hb => hcmp a (List.mem_cons_self _ _) b (List.mem_cons_of_mem _ (hperm.subset hb)))
      htotal htrans hsorted
    refine ⟨l', ?_, hperm'.trans (List.Perm.cons a hperm), hsorted'⟩
    simp [arraySort, hs, hl', bind, Except.bind]

end ArraySort

theorem foldl_appendChild (l c : List RowNode) (hl : (l.map Prod.fst).Nodup) :
    l.foldl appendChild c = c.filter (fun x => decide (x.1 ∉ l.map Prod.fst)) ++ l := by
  induction l generalizing c with
  | nil => simp
  | cons a l ih =>
    rw [List.map_cons, List.nodup_cons] at hl
    rw [List.foldl_cons, ih _ hl.2]
    have ha : decide (a.1 ∉ l.map Prod.fst) = true := by simpa using hl.1
    simp only [appendChild, List.filter_append, List.filter_filter, List.filter_cons,
      List.filter_nil, ha, if_true, List.append_assoc, List.singleton_append]
    congr 1
    apply List.filter_congr
    intro x _
    by_cases h1 : x.1 = a.1 <;> by_cases h2 : x.1 ∈ l.map Prod.fst <;> simp [h1, h2]

theorem foldl_appendChild_perm (rows sorted : List RowNode) (hperm : sorted.Perm rows)
    (hnodup : (rows.map Prod.fst).Nodup) : sorted.foldl appendChild rows = sorted := by
  rw [foldl_appendChild sorted rows ((hperm.map Prod.fst).nodup_iff.2 hnodup)]
  have : rows.filter (fun x => decide (x.1 ∉ sorted.map Prod.fst)) = [] := by
    rw [List.filter_eq_nil_iff]
    intro x hx
    have : x ∈ sorted := hperm.symm.subset hx
    simpa using ⟨x.2, this⟩
  rw [this, List.nil_append]

theorem cellKey_of_lt (column : Nat) (row : Row) (h : column < row.children.length) :
    cellKey column row = .ok (keyOf column row) := by
  unfold keyOf cellKey
  rw [List.get?_eq_get h]

theorem compareRows_of_lt (localeCompare : String → String → Int) (column : Nat)
    (direction : String) (a b : RowNode) (ha : column < a.2.children.length)
    (hb : column < b.2.children.length) :
    compareRows localeCompare column direction a b =
      .ok (rowOrder localeCompare column direction a.2 b.2) := by
  unfold compareRows rowOrder
  rw [cellKey_of_lt column a.2 ha, cellKey_of_lt column b.2 hb]
  by_cases hd : direction = "asc" <;> simp [hd, bind, Except.bind, pure, Except.pure]

theorem ConsistentComparator.total {cmp : String → String → Int}
    (hc : ConsistentComparator cmp) (a b : String) (h : ¬ cmp a b ≤ 0) : cmp b a ≤ 0 :=
  le_of_lt ((hc.antisymm b a).2 (lt_of_not_ge h))

theorem rowOrder_total (localeCompare : String → String → Int)
    (hc : ConsistentComparator localeCompare) (column : Nat) (direction : String)
    (x y : Row) (h : ¬ rowOrder localeCompare column direction x y ≤ 0) :
    rowOrder localeCompare column direction y x ≤ 0 := by
  unfold rowOrder at *
  by_cases hd : direction = "asc"
  · simp only [hd, if_true] at *
    exact hc.total _ _ h
  · simp only [hd, if_false] at *
    exact hc.total _ _ h

theorem rowOrder_trans (localeCompare : String → String → Int)
    (hc : ConsistentComparator localeCompare) (column : Nat) (direction : String)
    (x y z : Row) (h1 : rowOrder localeCompare column direction x y ≤ 0)
    (h2 : rowOrder localeCompare column direction y z ≤ 0) :
    rowOrder localeCompare column direction x z ≤ 0 := by
  unfold rowOrder at *
  by_cases hd : direction = "asc"
  · simp only [hd, if_true] at *
    exact hc.trans _ _ _ h1 h2
  · simp only [hd, if_false] at *
    exact hc.trans _ _ _ h2 h1

/-- With a usable column, `sortTable` replaces the body by a sorted permutation
of its rows and raises nothing. -/
theorem sortTable_some (localeCompare : String → String → Int)
    (hc : ConsistentComparator localeCompare) (trs : List Row) (column : Nat)
    (direction : String) (hcol : ∀ row ∈ trs, column < row.children.length) :
    ∃ rows', sortTable localeCompare ⟨some trs⟩ column direction = (⟨some rows'⟩, none) ∧
      rows'.Perm trs ∧
      rows'.Pairwise (fun a b => rowOrder localeCompare column direction a b ≤ 0) := by
  have hvalid : ∀ n ∈ trs.enum, column < n.2.children.length := by
    intro n hn
    have : n.2 ∈ trs.enum.map Prod.snd := List.mem_map_of_mem _ hn
    rw [List.enum_map_snd] at this
    exact hcol _ this
  obtain ⟨sorted, hsort, hperm, hsorted⟩ :=
    arraySort_spec (compareRows localeCompare column direction)
      (fun a b => rowOrder localeCompare column direction a.2 b.2) trs.enum
      (fun a ha b hb => compareRows_of_lt _ _ _ a b (hvalid a ha) (hvalid b hb))
      (fun x y => rowOrder_total localeCompare hc column direction x.2 y.2)
      (fun x y z => rowOrder_trans localeCompare hc column direction x.2 y.2 z.2)
  have hnodup : (trs.enum.map Prod.fst).Nodup := by
    rw [List.enum_map_fst]
    exact List.nodup_range _
  refine ⟨sorted.map Prod.snd, ?_, ?_, ?_⟩
  · simp only [sortTable, hsort, foldl_appendChild_perm _ _ hperm hnodup]
  · have := hperm.map Prod.snd
    rwa [List.enum_map_snd] at this
  · exact List.pairwise_map.2 hsorted

theorem compareChars_antisymm (a b : List Char) :
    compareChars a b < 0 ↔ 0 < compareChars b a := by
  induction a generalizing b with
  | nil => cases b <;> simp [compareChars]
  | cons x xs ih =>
    cases b with
    | nil => simp [compareChars]
    | cons y ys =>
      simp only [compareChars]
      rcases Nat.lt_trichotomy x.toNat y.toNat with h | h | h
      · simp [h, Nat.lt_asymm h]
      · simp [h, ih ys]
      · simp [h, Nat.lt_asymm h]

theorem compareChars_trans (a b c : List Char) (h1 : compareChars a b ≤ 0)
    (h2 : compareChars b c ≤ 0) : compareChars a c ≤ 0 := by
  induction a generalizing b c with
  | nil => cases c <;> simp [compareChars]
  | cons x xs ih =>
    cases b with
    | nil => simp [compareChars] at h1
    | cons y ys =>
      cases c with
      | nil => simp [compareChars] at h2
      | cons z zs =>
        simp only [compareChars] at h1 h2 ⊢
        rcases Nat.lt_trichotomy x.toNat y.toNat with hxy | hxy | hxy
        · rcases Nat.lt_trichotomy y.toNat z.toNat with hyz | hyz | hyz
          · simp [Nat.lt_trans hxy hyz]
          · simp [← hyz, hxy]
          · simp [hyz, Nat.lt_asymm hyz] at h2
        · rcases Nat.lt_trichotomy y.toNat z.toNat with hyz | hyz | hyz
          · simp [hxy, hyz]
          · simp only [hxy, hyz, lt_self_iff_false, if_false] at h1 h2 ⊢
            exact ih ys zs h1 h2
          · simp [hyz, Nat.lt_asymm hyz] at h2
        · simp [hxy, Nat.lt_asymm hxy] at h1

theorem codePointCompare_consistent : ConsistentComparator codePointCompare :=
  ⟨fun a b => compareChars_antisymm a.toList b.toList,
   fun a b c => compareChars_trans a.toList b.toList c.toList⟩

/-- C1: for every table, every column index at which each body row has a cell,
and every consistent collation, `sortTable` raises nothing when the table has a
body and leaves the body rows a permutation of the original rows; with
direction 'asc' they are ordered non-decreasingly by the collation of the
column's trimmed text, and with any other direction, in particular 'desc',
non-increasingly. -/
theorem sortTable_orders_body_rows (localeCompare : String → String → Int)
    (hc : ConsistentComparator localeCompare) (table : Table) (column : Nat)
    (direction : String)
    (hcol : ∀ row ∈ table.bodyRows, column < row.children.length) :
    (table.tbody ≠ none → (sortTable localeCompare table column direction).2 = none) ∧
    (sortTable localeCompare table column direction).1.bodyRows.Perm table.bodyRows ∧
    (direction = "asc" →
      (sortTable localeCompare table column direction).1.bodyRows.Pairwise
        (fun a b => ∃ ka kb, cellKey column a = .ok ka ∧ cellKey column b = .ok kb ∧
          localeCompare ka kb ≤ 0)) ∧
    (direction ≠ "asc" →
      (sortTable localeCompare table column direction).1.bodyRows.Pairwise
        (fun a b => ∃ ka kb, cellKey column a = .ok ka ∧ cellKey column b = .ok kb ∧
          localeCompare kb ka ≤ 0)) := by
  obtain ⟨tbody⟩ := table
  cases tbody with
  | none =>
    refine ⟨fun h => absurd rfl h, ?_, fun _ => ?_, fun _ => ?_⟩ <;>
      simp [sortTable, Table.bodyRows]
  | some trs =>
    obtain ⟨rows', hrun, hperm, hsorted⟩ :=
      sortTable_some localeCompare hc trs column direction hcol
    have hlen : ∀ row ∈ rows', column < row.children.length :=
      fun row hrow => hcol row (hperm.subset hrow)
    rw [hrun]
    refine ⟨fun _ => rfl, hperm, fun hd => ?_, fun hd => ?_⟩
    · refine (List.Pairwise.and_mem.1 hsorted).imp ?_
      rintro a b ⟨ha, hb, hab⟩
      refine ⟨_, _, cellKey_of_lt column a (hlen a ha), cellKey_of_lt column b (hlen b hb), ?_⟩
      simpa [rowOrder, hd] using hab
    · refine (List.Pairwise.and_mem.1 hsorted).imp ?_
      rintro a b ⟨ha, hb, hab⟩
      refine ⟨_, _, cellKey_of_lt column a (hlen a ha), cellKey_of_lt column b (hlen b hb), ?_⟩
      simpa [rowOrder, hd] using hab

/-- C1 at the table with column texts "b", "a", "c" under code point collation:
the hypotheses hold, ascending order gives "a", "b", "c" and descending order
gives "c", "b", "a". -/
theorem sortTable_orders_body_rows_witness :
    ConsistentComparator codePointCompare ∧
    (sortTable codePointCompare (columnTable ["b", "a", "c"]) 0 "asc").1 =
      columnTable ["a", "b", "c"] ∧
    (sortTable codePointCompare (columnTable ["b", "a", "c"]) 0 "desc").1 =
      columnTable ["c", "b", "a"] ∧
    (sortTable codePointCompare (columnTable ["b", "a", "c"]) 0 "desc").1.bodyRows.Perm
      (columnTable ["b", "a", "c"]).bodyRows :=
  ⟨codePointCompare_consistent, by decide, by decide,
    (sortTable_orders_body_rows codePointCompare codePointCompare_consistent
      (columnTable ["b", "a", "c"]) 0 "desc" (by decide)).2.1⟩

/-! ## Notifications and the file-size guard -/

theorem alertDiv_hasClass (message type : String) :
    (alertDiv message type).hasClass "alert" = true := by
  have h : ("alert alert-" ++ type ++ " alert-dismissible fade show").toList =
      'a' :: 'l' :: 'e' :: 'r' :: 't' :: ' ' ::
        ("alert-" ++ type ++ " alert-dismissible fade show").toList := by
    simp [String.toList, String.data_append]
  simp only [alertDiv, Node.hasClass, classTokens, h]
  simp [splitTokens, isAsciiWhitespace]

theorem showNotification_some (doc : Document) (message type : String)
    (children : List Node) (h : doc.container = some children) :
    showNotification doc message (some type) =
      { doc with container := some (alertDiv message type :: children) } := by
  simp [showNotification, h]

theorem showNotification_none (doc : Document) (message : String) (type : Option String)
    (h : doc.container = none) : showNotification doc message type = doc := by
  simp [showNotification, h]

theorem showNotification_alerts (doc : Document) (message type : String)
    (children : List Node) (h : doc.container = some children) :
    (showNotification doc message (some type)).alerts = alertDiv message type :: doc.alerts := by
  rw [showNotification_some doc message type children h]
  simp [Document.alerts, h, List.filter_cons, alertDiv_hasClass]

theorem sizeMB_gt_iff (size : Nat) (maxSizeMB : ℚ) :
    (size : ℚ) / (1024 * 1024) > maxSizeMB ↔ (size : ℚ) > maxSizeMB * 1024 * 1024 := by
  rw [gt_iff_lt, gt_iff_lt, lt_div_iff₀ (by norm_num), mul_assoc]

/-- C2 (amended): for every page, file input and ceiling (16 when omitted),
`validateFileSize` returns false exactly when a file is chosen whose size in
bytes exceeds the ceiling times 1024 * 1024.  In that case the input value and
file list are cleared and, when the page has a `.container` element, exactly
one danger banner becomes its first child, while a page without such an
element is left as it was.  In every other case, also when no file is chosen,
it returns true and leaves the input and the page unchanged. -/
theorem validateFileSize_guard (numberToString : ℚ → String) (doc : Document)
    (input : FileInput) (maxSizeMB : Option ℚ) :
    ((validateFileSize numberToString doc input maxSizeMB).returned = false ↔
      ∃ file, input.files.head? = some file ∧
        (file.size : ℚ) > maxSizeMB.getD 16 * 1024 * 1024) ∧
    ((validateFileSize numberToString doc input maxSizeMB).returned = false →
      (validateFileSize numberToString doc input maxSizeMB).input = { value := "", files := [] } ∧
      (∀ children, doc.container = some children →
        (validateFileSize numberToString doc input maxSizeMB).doc =
          { doc with container := some (alertDiv
            ("File size must be less than " ++ numberToString (maxSizeMB.getD 16) ++ "MB")
            "danger" :: children) } ∧
        (validateFileSize numberToString doc input maxSizeMB).doc.alerts =
          alertDiv ("File size must be less than " ++ numberToString (maxSizeMB.getD 16) ++ "MB")
            "danger" :: doc.alerts) ∧
      (doc.container = none →
        (validateFileSize numberToString doc input maxSizeMB).doc = doc)) ∧
    ((validateFileSize numberToString doc input maxSizeMB).returned = true →
      (validateFileSize numberToString doc input maxSizeMB).input = input ∧
      (validateFileSize numberToString doc input maxSizeMB).doc = doc) := by
  unfold validateFileSize
  cases hfile : input.files.head? with
  | none => simp
  | some file =>
    by_cases hgt : (file.size : ℚ) / (1024 * 1024) > maxSizeMB.getD 16
    · have hgt' := (sizeMB_gt_iff file.size (maxSizeMB.getD 16)).1 hgt
      simp only [hgt, if_true, true_and, Option.some.injEq, exists_eq_left', hgt', true_iff,
        Bool.false_eq_true, false_imp_iff, and_true, forall_true_left]
      refine ⟨fun children hc => ⟨showNotification_some _ _ _ _ hc,
        showNotification_alerts _ _ _ _ hc⟩, fun hc => showNotification_none _ _ _ hc⟩
    · have hgt' := fun h => hgt ((sizeMB_gt_iff file.size (maxSizeMB.getD 16)).2 h)
      simp only [hgt, if_false]
      simpa using le_of_not_lt hgt'

/-- C2 as stated fails on a page without a `.container` element: a 17MB file
under the default ceiling is rejected and the input is cleared, yet no banner
is on the page afterwards. -/
theorem validateFileSize_no_container_shows_nothing :
    (validateFileSize integerToString { container := none, filterForm := none }
      { value := "C:\\fakepath\\cv.pdf", files := [{ name := "cv.pdf", size := 17 * 1024 * 1024 }] }
      none).returned = false ∧
    (validateFileSize integerToString { container := none, filterForm := none }
      { value := "C:\\fakepath\\cv.pdf", files := [{ name := "cv.pdf", size := 17 * 1024 * 1024 }] }
      none).input.value = "" ∧
    (validateFileSize integerToString { container := none, filterForm := none }
      { value := "C:\\fakepath\\cv.pdf", files := [{ name := "cv.pdf", size := 17 * 1024 * 1024 }] }
      none).doc.alerts = [] := by
  refine ⟨?_, ?_, ?_⟩ <;>
    norm_num [validateFileSize, showNotification, Document.alerts]

/-- C2 (amended) at a 17MB file and at a 15MB file under the default ceiling,
on a page with an empty container: the first is rejected with one danger
banner, the second is accepted with input and page unchanged. -/
theorem validateFileSize_guard_witness :
    ((validateFileSize integerToString { container := some [], filterForm := none }
      { value := "cv.pdf", files := [{ name := "cv.pdf", size := 17 * 1024 * 1024 }] }
      none).returned = false ↔
      ∃ file, [({ name := "cv.pdf", size := 17 * 1024 * 1024 } : File)].head? = some file ∧
        (file.size : ℚ) > (none : Option ℚ).getD 16 * 1024 * 1024) ∧
    (validateFileSize integerToString { container := some [], filterForm := none }
      { value := "cv.pdf", files := [{ name := "cv.pdf", size := 17 * 1024 * 1024 }] }
      none).returned = false ∧
    (validateFileSize integerToString { container := some [], filterForm := none }
      { value := "cv.pdf", files := [{ name := "cv.pdf", size := 15 * 1024 * 1024 }] }
      none).returned = true :=
  ⟨(validateFileSize_guard integerToString { container := some [], filterForm := none }
      { value := "cv.pdf", files := [{ name := "cv.pdf", size := 17 * 1024 * 1024 }] } none).1,
    by norm_num [validateFileSize], by norm_num [validateFileSize]⟩

/-! ## Status update client -/

theorem updateApplicationStatus_doc (doc : Document) (applicationId status : String)
    (outcome : RequestOutcome) :
    (updateApplicationStatus doc applicationId status outcome).doc =
      if successFlagged outcome then
        showNotification doc "Status updated successfully" (some "success")
      else showNotification doc "Error updating status" (some "danger") := by
  cases outcome with
  | networkError => simp [updateApplicationStatus, successFlagged]
  | notJson => simp [updateApplicationStatus, successFlagged]
  | json data =>
    cases data with
    | null =>
      simp [updateApplicationStatus, successFlagged, statusResponse, JsData.get, bind,
        Except.bind]
    | object props =>
      by_cases h : isTruthy (props.lookup "success") = true <;>
        simp [updateApplicationStatus, successFlagged, statusResponse, JsData.get, bind,
          Except.bind, pure, Except.pure, h]

/-- C4 (amended): for every page, application identifier, status and request
outcome, `updateApplicationStatus` issues one POST to
`/applications/{id}/update_status` carrying `status` and `send_notification=on`.
When the page has a `.container` element, exactly one banner becomes its first
child: a success banner when the response body parsed as JSON carries a truthy
`success` property, a danger banner for every other outcome (falsy or missing
`success`, `null`, a body that is not JSON, a network error).  A page without a
`.container` element is left as it was. -/
theorem updateApplicationStatus_notifies (doc : Document) (applicationId status : String)
    (outcome : RequestOutcome) :
    (updateApplicationStatus doc applicationId status outcome).request =
      { url := "/applications/" ++ applicationId ++ "/update_status", method := "POST",
        body := [("status", status), ("send_notification", "on")] } ∧
    (∀ children, doc.container = some children →
      (successFlagged outcome = true →
        (updateApplicationStatus doc applicationId status outcome).doc =
          { doc with container := some (
              alertDiv "Status updated successfully" "success" :: children) } ∧
        (updateApplicationStatus doc applicationId status outcome).doc.alerts =
          alertDiv "Status updated successfully" "success" :: doc.alerts) ∧
      (successFlagged outcome = false →
        (updateApplicationStatus doc applicationId status outcome).doc =
          { doc with container := some (
              alertDiv "Error updating status" "danger" :: children) } ∧
        (updateApplicationStatus doc applicationId status outcome).doc.alerts =
          alertDiv "Error updating status" "danger" :: doc.alerts)) ∧
    (doc.container = none →
      (updateApplicationStatus doc applicationId status outcome).doc = doc) := by
  refine ⟨?_, fun children hc => ⟨fun hs => ?_, fun hs => ?_⟩, fun hc => ?_⟩
  · cases outcome with
    | networkError => rfl
    | notJson => rfl
    | json data =>
      simp only [updateApplicationStatus]
      split <;> rfl
  · rw [updateApplicationStatus_doc, hs, if_pos rfl]
    exact ⟨showNotification_some _ _ _ _ hc, showNotification_alerts _ _ _ _ hc⟩
  · rw [updateApplicationStatus_doc, hs]
    exact ⟨showNotification_some _ _ _ _ hc, showNotification_alerts _ _ _ _ hc⟩
  · rw [updateApplicationStatus_doc]
    split <;> exact showNotification_none _ _ _ hc

/-- C4 as stated fails twice.  On a page without a `.container` element a
`{success: true}` response leaves no banner on the page.  And a response
`{success: 1}`, which is not flagged `{success: true}`, is answered with a
success banner, not a danger banner. -/
theorem updateApplicationStatus_counterexample :
    (updateApplicationStatus { container := none, filterForm := none } "42" "approved"
      (.json (.object [("success", JsValue.true)]))).doc.alerts = [] ∧
    flaggedSuccessTrue (.json (.object [("success", { truthy := true, text := "1" })])) = false ∧
    (updateApplicationStatus { container := some [], filterForm := none } "42" "approved"
      (.json (.object [("success", { truthy := true, text := "1" })]))).doc.alerts =
      [alertDiv "Status updated successfully" "success"] := by
  refine ⟨rfl, by decide, ?_⟩
  have h := (updateApplicationStatus_doc { container := some [], filterForm := none } "42"
    "approved" (.json (.object [("success", { truthy := true, text := "1" })])))
  rw [h]
  exact showNotification_alerts { container := some [], filterForm := none } _ _ [] rfl

/-- C4 (amended) at identifier 42 and status "approved" on a page with an empty
container: the request goes to `/applications/42/update_status`, a
`{success: true}` response gives one success banner and a network error gives
one danger banner. -/
theorem updateApplicationStatus_notifies_witness :
    (updateApplicationStatus { container := some [], filterForm := none } "42" "approved"
      (.json (.object [("success", JsValue.true)]))).request.url =
      "/applications/42/update_status" ∧
    (updateApplicationStatus { container := some [], filterForm := none } "42" "approved"
      (.json (.object [("success", JsValue.true)]))).doc.alerts =
      alertDiv "Status updated successfully" "success" ::
        (Document.alerts { container := some [], filterForm := none }) ∧
    (updateApplicationStatus { container := some [], filterForm := none } "42" "approved"
      .networkError).doc.alerts =
      alertDiv "Error updating status" "danger" ::
        (Document.alerts { container := some [], filterForm := none }) :=
  ⟨by decide,
    (((updateApplicationStatus_notifies { container := some [], filterForm := none } "42"
      "approved" (.json (.object [("success", JsValue.true)]))).2.1 [] rfl).1 rfl).2,
    (((updateApplicationStatus_notifies { container := some [], filterForm := none } "42"
      "approved" .networkError).2.1 [] rfl).2 rfl).2⟩

/-! ## Form validation gate -/

theorem mem_classListAdd (classList : List String) (token : String) :
    token ∈ classListAdd classList token := by
  unfold classListAdd
  split
  · assumption
  · simp

/-- C6: for every form flagged as requiring validation whose constraint check
fails, the submit listener cancels the submission, suppressing both the default
action and event propagation, and the form carries the 'was-validated' marker
class afterwards. -/
theorem validationSubmitListener_invalid (form : ValidatedForm) (event : SubmitEvent)
    (hinvalid : form.checkValidity = false) :
    (validationSubmitListener form event).2.defaultPrevented = true ∧
    (validationSubmitListener form event).2.propagationStopped = true ∧
    "was-validated" ∈ (validationSubmitListener form event).1.classList := by
  refine ⟨?_, ?_, ?_⟩
  · simp [validationSubmitListener, hinvalid]
  · simp [validationSubmitListener, hinvalid]
  · exact mem_classListAdd _ _

/-- C6 at an invalid form with class list "needs-validation" and a fresh
event. -/
theorem validationSubmitListener_invalid_witness :
    (validationSubmitListener { checkValidity := false, classList := ["needs-validation"] }
      { defaultPrevented := false, propagationStopped := false }).2.defaultPrevented = true ∧
    (validationSubmitListener { checkValidity := false, classList := ["needs-validation"] }
      { defaultPrevented := false, propagationStopped := false }).2.propagationStopped = true ∧
    "was-validated" ∈
      (validationSubmitListener { checkValidity := false, classList := ["needs-validation"] }
        { defaultPrevented := false, propagationStopped := false }).1.classList :=
  validationSubmitListener_invalid { checkValidity := false, classList := ["needs-validation"] }
    { defaultPrevented := false, propagationStopped := false } rfl

/-- C7 as stated fails: a valid form with class list "needs-validation" leaves
the listener with the class 'was-validated' added, so the form is not in the
state it was in before. -/
theorem validationSubmitListener_valid_changes_form :
    (validationSubmitListener { checkValidity := true, classList := ["needs-validation"] }
      { defaultPrevented := false, propagationStopped := false }).1 ≠
      { checkValidity := true, classList := ["needs-validation"] } ∧
    (validationSubmitListener { checkValidity := true, classList := ["needs-validation"] }
      { defaultPrevented := false, propagationStopped := false }).1.classList =
      ["needs-validation", "was-validated"] := by
  decide

/-- C7 (amended): for every form flagged as requiring validation whose
constraint check passes, the submit listener leaves the event as it was,
neither default-prevented nor stopped by this listener, and changes nothing of
the form but its class list, to which 'was-validated' is added when not yet
present. -/
theorem validationSubmitListener_valid (form : ValidatedForm) (event : SubmitEvent)
    (hvalid : form.checkValidity = true) :
    (validationSubmitListener form event).2 = event ∧
    (validationSubmitListener form event).1.checkValidity = form.checkValidity ∧
    (validationSubmitListener form event).1.classList =
      classListAdd form.classList "was-validated" ∧
    ("was-validated" ∈ form.classList → (validationSubmitListener form event).1 = form) ∧
    ("was-validated" ∉ form.classList →
      (validationSubmitListener form event).1.classList =
        form.classList ++ ["was-validated"]) := by
  refine ⟨?_, rfl, rfl, fun h => ?_, fun h => ?_⟩
  · simp [validationSubmitListener, hvalid]
  · simp [validationSubmitListener, classListAdd, h]
  · simp [validationSubmitListener, classListAdd, h]

/-- C7 (amended) at a valid form with class list "needs-validation" and a
fresh event. -/
theorem validationSubmitListener_valid_witness :
    (validationSubmitListener { checkValidity := true, classList := ["needs-validation"] }
      { defaultPrevented := false, propagationStopped := false }).2 =
      { defaultPrevented := false, propagationStopped := false } :=
  (validationSubmitListener_valid { checkValidity := true, classList := ["needs-validation"] }
    { defaultPrevented := false, propagationStopped := false } rfl).1

/-! ## Loading indicator -/

theorem findClassIn_append (cls : String) (l₁ l₂ : List Node) :
    findClassIn cls (l₁ ++ l₂) =
      match findClassIn cls l₁ with
      | some m => some m
      | none => findClassIn cls l₂ := by
  induction l₁ with
  | nil => simp [findClassIn]
  | cons n ns ih =>
    simp only [List.cons_append, findClassIn]
    cases n.findClass cls with
    | some m => rfl
    | none => simpa using ih

theorem findClassIn_spinner (children : List Node) :
    findClassIn "filter-loading" (children ++ [spinner]) ≠ none := by
  rw [findClassIn_append]
  cases findClassIn "filter-loading" children with
  | some m => simp
  | none =>
    have hmem : "filter-loading" ∈
        classTokens "filter-loading position-absolute top-50 start-50 translate-middle" := by
      decide
    simp [findClassIn, Node.findClass, spinner, hmem]

theorem showLoadingIndicator_no_form (doc : Document) (h : doc.filterForm = none) :
    showLoadingIndicator doc = doc := by
  simp [showLoadingIndicator, h]

theorem showLoadingIndicator_found (doc : Document) (filterForm : FormElement) (m : Node)
    (h : doc.filterForm = some filterForm)
    (hfind : findClassIn "filter-loading" filterForm.children = some m) :
    showLoadingIndicator doc = doc := by
  simp [showLoadingIndicator, h, hfind]

theorem showLoadingIndicator_missing (doc : Document) (filterForm : FormElement)
    (h : doc.filterForm = some filterForm)
    (hfind : findClassIn "filter-loading" filterForm.children = none) :
    showLoadingIndicator doc =
      { doc with filterForm := some ⟨"relative", filterForm.children ++ [spinner]⟩ } := by
  simp [showLoadingIndicator, h, hfind]

theorem showLoadingIndicator_idem (doc : Document) :
    showLoadingIndicator (showLoadingIndicator doc) = showLoadingIndicator doc := by
  cases hform : doc.filterForm with
  | none => simp [showLoadingIndicator_no_form doc hform]
  | some filterForm =>
    cases hfind : findClassIn "filter-loading" filterForm.children with
    | some m => simp [showLoadingIndicator_found doc filterForm m hform hfind]
    | none =>
      rw [showLoadingIndicator_missing doc filterForm hform hfind]
      cases hfind' : findClassIn "filter-loading" (filterForm.children ++ [spinner]) with
      | none => exact absurd hfind' (findClassIn_spinner _)
      | some m => exact showLoadingIndicator_found _ ⟨"relative", _⟩ m rfl hfind'

theorem showLoadingIndicator_iterate (doc : Document) (n : Nat) :
    showLoadingIndicator^[n + 1] doc = showLoadingIndicator doc := by
  induction n with
  | zero => rfl
  | succ n ih =>
    rw [Function.iterate_succ_apply', ih, showLoadingIndicator_idem]

/-- C8: `showLoadingIndicator` is idempotent: on every page, calling it twice
gives the page that calling it once gives.  After any number of calls the page
is either as it was at the start, or it is the starting page with exactly one
spinner appended to the filter form, which then held no `.filter-loading`
element before: the function never adds a second indicator. -/
theorem showLoadingIndicator_idempotent (doc : Document) :
    showLoadingIndicator (showLoadingIndicator doc) = showLoadingIndicator doc ∧
    ∀ n : Nat, showLoadingIndicator^[n] doc = doc ∨
      ∃ filterForm, doc.filterForm = some filterForm ∧
        findClassIn "filter-loading" filterForm.children = none ∧
        showLoadingIndicator^[n] doc =
          { doc with filterForm := some ⟨"relative", filterForm.children ++ [spinner]⟩ } := by
  refine ⟨showLoadingIndicator_idem doc, fun n => ?_⟩
  cases n with
  | zero => exact Or.inl rfl
  | succ n =>
    rw [showLoadingIndicator_iterate]
    cases hform : doc.filterForm with
    | none => exact Or.inl (showLoadingIndicator_no_form doc hform)
    | some filterForm =>
      cases hfind : findClassIn "filter-loading" filterForm.children with
      | some m => exact Or.inl (showLoadingIndicator_found doc filterForm m hform hfind)
      | none =>
        exact Or.inr ⟨filterForm, rfl, hfind,
          showLoadingIndicator_missing doc filterForm hform hfind⟩

/-! ## Debounced auto-filter -/

theorem runKeystrokes_pending (input : SearchInput) (rest : List Nat) (prev : Nat)
    (s : DebounceState) (hsub : s.submissions = []) (htimer : s.timeoutId = some (prev + 300))
    (hgap : rest.Chain (fun a b => a ≤ b ∧ b < a + 300) prev) :
    (runKeystrokes input rest s).submissions = [] ∧
    (runKeystrokes input rest s).timeoutId =
      some ((prev :: rest).getLast (List.cons_ne_nil _ _) + 300) := by
  induction rest generalizing prev s with
  | nil => exact ⟨hsub, htimer⟩
  | cons now rest ih =>
    rw [List.chain_cons] at hgap
    have hfire : fireDue input now s = s := by
      simp [fireDue, htimer, Nat.not_le.2 hgap.1.2]
    have := ih now (debounceStep input s (.keystroke now)) hsub rfl hgap.2
    simpa [runKeystrokes, hfire, List.getLast_cons] using this

theorem runKeystrokes_burst (input : SearchInput) (doc : Document) (times : List Nat)
    (hne : times ≠ []) (hgap : times.Chain' (fun a b => a ≤ b ∧ b < a + 300)) :
    (runKeystrokes input times (DebounceState.initial doc)).submissions = [] ∧
    (runKeystrokes input times (DebounceState.initial doc)).timeoutId =
      some (times.getLast hne + 300) := by
  cases times with
  | nil => exact absurd rfl hne
  | cons first rest =>
    have hfire : fireDue input first (DebounceState.initial doc) = DebounceState.initial doc := by
      simp [fireDue, DebounceState.initial]
    have := runKeystrokes_pending input rest first
      (debounceStep input (DebounceState.initial doc) (.keystroke first)) rfl rfl hgap
    simpa [runKeystrokes, hfire] using this

/-- C5: for every search input inside a form whose `data-auto-filter`
attribute is "true", and every sequence of one or more input events in which
each event follows the previous one by less than 300ms, no submission has
happened after any initial part of the sequence, and once the pending timer
has fired the form has been submitted exactly once, at 300ms after the last
event, with no timer left pending. -/
theorem debounce_submits_once (input : SearchInput) (doc : Document) (times : List Nat)
    (hform : input.closestForm = true) (hattr : input.autoFilter = some "true")
    (hne : times ≠ []) (hgap : times.Chain' (fun a b => a ≤ b ∧ b < a + 300)) :
    (∀ p, p <+: times →
      (runKeystrokes input p (DebounceState.initial doc)).submissions = []) ∧
    (settle input (runKeystrokes input times (DebounceState.initial doc))).submissions =
      [times.getLast hne + 300] ∧
    (settle input (runKeystrokes input times (DebounceState.initial doc))).timeoutId = none := by
  refine ⟨fun p hp => ?_, ?_, ?_⟩
  · by_cases hp' : p = []
    · subst hp'
      rfl
    · obtain ⟨t, rfl⟩ := hp
      exact (runKeystrokes_burst input doc p hp' hgap.left_of_append).1
  · obtain ⟨hsub, htimer⟩ := runKeystrokes_burst input doc times hne hgap
    simp [settle, htimer, debounceStep, timerCallback, hform, hattr, hsub]
  · obtain ⟨hsub, htimer⟩ := runKeystrokes_burst input doc times hne hgap
    simp [settle, htimer, debounceStep, timerCallback, hform, hattr]

/-- C5 at three keystrokes at 0ms, 100ms and 250ms on an empty page: the one
submission happens at 550ms. -/
theorem debounce_submits_once_witness :
    (settle { closestForm := true, autoFilter := some "true" }
      (runKeystrokes { closestForm := true, autoFilter := some "true" } [0, 100, 250]
        (DebounceState.initial { container := none, filterForm := none }))).submissions =
      [250 + 300] :=
  (debounce_submits_once { closestForm := true, autoFilter := some "true" }
    { container := none, filterForm := none } [0, 100, 250] rfl rfl (by decide)
    (by simp)).2.1

/-! ## Submit-loading guard -/

theorem runSubmits_spaced (rest : List Nat) (prev : Nat) (label : String)
    (hgap : rest.Chain (fun a b => a + 3000 ≤ b) prev) :
    runSubmits rest
      { submitBtn := some { innerHTML := processingLabel, disabled := true },
        timers := [(prev + 3000, label)] } =
      { submitBtn := some { innerHTML := processingLabel, disabled := true },
        timers := [((prev :: rest).getLast (List.cons_ne_nil _ _) + 3000, label)] } := by
  induction rest generalizing prev with
  | nil => rfl
  | cons now rest ih =>
    rw [List.chain_cons] at hgap
    have hstep : documentSubmitListener "FORM" now (fireDueTimers now
        { submitBtn := some { innerHTML := processingLabel, disabled := true },
          timers := [(prev + 3000, label)] }) =
        { submitBtn := some { innerHTML := processingLabel, disabled := true },
          timers := [(now + 3000, label)] } := by
      simp [documentSubmitListener, fireDueTimers, submitFormWithLoading, restoreButton,
        hgap.1, List.filter_cons]
    rw [runSubmits, hstep, ih now hgap.2]
    simp [List.getLast_cons]

/-- When every submit event comes at least three seconds after the previous
one, the guard does restore the label the button had before the first
submission, and the button is enabled. -/
theorem submitGuard_spaced_submits (first : Nat) (rest : List Nat) (submitBtn : Button)
    (hgap : rest.Chain (fun a b => a + 3000 ≤ b) first) :
    fireAllTimers (runSubmits (first :: rest) { submitBtn := some submitBtn, timers := [] }) =
      { submitBtn := some { innerHTML := submitBtn.innerHTML, disabled := false },
        timers := [] } := by
  have hstep : documentSubmitListener "FORM" first (fireDueTimers first
      { submitBtn := some submitBtn, timers := [] }) =
      { submitBtn := some { innerHTML := processingLabel, disabled := true },
        timers := [(first + 3000, submitBtn.innerHTML)] } := by
    simp [documentSubmitListener, fireDueTimers, submitFormWithLoading]
  rw [runSubmits, hstep, runSubmits_spaced rest first submitBtn.innerHTML hgap]
  simp [fireAllTimers, restoreButton]

/-- C9 fails on overlapping submissions: two submit events one second apart on
a form whose button reads "Save" leave the button, once both timers have
fired, enabled but labelled with the processing spinner, because the second
call captured the spinner as its original text.  A single submission does
restore "Save". -/
theorem submitGuard_overlapping_submits :
    fireAllTimers (runSubmits [0, 1000]
      { submitBtn := some { innerHTML := "Save", disabled := false }, timers := [] }) =
      { submitBtn := some { innerHTML := processingLabel, disabled := false },
        timers := [] } ∧
    fireAllTimers (runSubmits [0]
      { submitBtn := some { innerHTML := "Save", disabled := false }, timers := [] }) =
      { submitBtn := some { innerHTML := "Save", disabled := false }, timers := [] } := by
  decide

/-! ## Draft auto-save -/

theorem getItem_removeItem (storage : Storage) (key : String) :
    getItem (removeItem storage key) key = none := by
  unfold getItem removeItem
  induction storage with
  | nil => rfl
  | cons entry rest ih =>
    by_cases h : entry.1 = key
    · simpa [List.filter_cons, h] using ih
    · have h' : (key == entry.1) = false := by
        simpa using fun h'' => h h''.symm
      simpa [List.filter_cons, h, List.lookup, h'] using ih

theorem getItem_setItem (storage : Storage) (key value : String) :
    getItem (setItem storage key value) key = some value := by
  simp [getItem, setItem, List.lookup]

/-- The submit listener removes the draft on every submit event. -/
theorem submitListener_removes_draft (storageKey : String) (storage : Storage) :
    getItem (submitListener storageKey storage) storageKey = none :=
  getItem_removeItem storage storageKey

/-- C10: for every form, and every stored string under the storage key that
the platform's `JSON.parse` rejects, the load step of `autoSaveForm` completes
and leaves every field exactly as rendered, which is also the state it leaves
when the storage holds nothing under the key.  A non-empty such string makes
the `try` block raise the parse error with no field assigned, and the error is
caught and logged once. -/
theorem autoSaveForm_malformed_draft (json : JsonApi) (inputs : List Field)
    (storageKey : String) (storage : Storage) (savedData : String)
    (hstored : getItem storage storageKey = some savedData)
    (hmalformed : json.parse savedData = none) :
    (autoSaveForm json inputs storageKey storage).inputs = inputs ∧
    (autoSaveForm json inputs storageKey storage).inputs =
      (autoSaveForm json inputs storageKey (removeItem storage storageKey)).inputs ∧
    (savedData ≠ "" →
      loadSavedData json inputs savedData = (inputs, some (.syntaxError "JSON.parse")) ∧
      (autoSaveForm json inputs storageKey storage).console =
        ["Error loading saved form data:"]) := by
  have hnone : (autoSaveForm json inputs storageKey (removeItem storage storageKey)).inputs =
      inputs := by
    simp [autoSaveForm, getItem_removeItem]
  have hbad : (autoSaveForm json inputs storageKey storage).inputs = inputs := by
    unfold autoSaveForm
    rw [hstored]
    by_cases hempty : savedData = ""
    · simp [hempty]
    · simp [hempty, loadSavedData, hmalformed]
  refine ⟨hbad, hbad.trans hnone.symm, fun hempty => ⟨?_, ?_⟩⟩
  · simp [loadSavedData, hmalformed]
  · unfold autoSaveForm
    rw [hstored]
    simp [hempty, loadSavedData, hmalformed]

/-- C10 at a one-field form and the stored text of an unfinished object, with
the reference JSON implementation. -/
theorem autoSaveForm_malformed_draft_witness :
    getItem [("internship-form-draft", "\x7boops")] "internship-form-draft" = some "\x7boops" ∧
    draftJson.parse "\x7boops" = none ∧
    (autoSaveForm draftJson [{ name := "title", type := "text", value := "Intern" }]
      "internship-form-draft" [("internship-form-draft", "\x7boops")]).inputs =
      [{ name := "title", type := "text", value := "Intern" }] :=
  ⟨by decide, by decide,
    (autoSaveForm_malformed_draft draftJson
      [{ name := "title", type := "text", value := "Intern" }]
      "internship-form-draft" [("internship-form-draft", "\x7boops")] "\x7boops"
      (by decide) (by decide)).1⟩

theorem defineProp_fresh {β : Type} (obj : List (String × β)) (key : String) (value : β)
    (h : key ∉ obj.map Prod.fst) : defineProp obj key value = obj ++ [(key, value)] := by
  induction obj with
  | nil => rfl
  | cons member rest ih =>
    obtain ⟨k, v⟩ := member
    simp only [List.map_cons, List.mem_cons, not_or] at h
    have hk : ¬ k = key := fun hk => h.1 hk.symm
    simp [defineProp, hk, ih h.2]

theorem foldl_setProp (inputs : List Field) (data : List (String × String))
    (hnodup : (data.map Prod.fst ++ inputs.map Field.name).Nodup)
    (hproto : "__proto__" ∉ inputs.map Field.name) :
    inputs.foldl (fun data inp => setProp data inp.name inp.value) data =
      data ++ inputs.map (fun inp => (inp.name, inp.value)) := by
  induction inputs generalizing data with
  | nil => simp
  | cons inp rest ih =>
    have hfresh : inp.name ∉ data.map Prod.fst := by
      intro hmem
      have := (List.nodup_append.1 hnodup).2.2 hmem
      exact this (List.mem_cons_self _ _)
    simp only [List.map_cons, List.mem_cons, not_or] at hproto
    have hname : ¬ inp.name = "__proto__" := fun h => hproto.1 h.symm
    rw [List.foldl_cons, setProp, if_neg hname,
      defineProp_fresh data inp.name inp.value hfresh, ih _ _ hproto.2]
    · simp
    · have : (data.map Prod.fst ++ inp.name :: rest.map Field.name).Nodup := by
        simpa using hnodup
      simpa [List.append_assoc] using this

theorem collectFields_distinct (inputs : List Field) (hnodup : (inputs.map Field.name).Nodup)
    (hproto : "__proto__" ∉ inputs.map Field.name) :
    collectFields inputs = inputs.map (fun inp => (inp.name, inp.value)) := by
  have := foldl_setProp inputs [] (by simpa using hnodup) hproto
  simpa [collectFields] using this

theorem restoreField_saved (props : List (String × JsValue)) (s f : Field)
    (hlook : props.lookup s.name = some (JsValue.ofString s.value))
    (hfile : s.type = "file" → s.value = "")
    (hname : f.name = s.name) (htype : f.type = s.type) :
    restoreField (.object props) f = .ok (if s.value = "" then f else s) := by
  by_cases hv : s.value = ""
  · simp [restoreField, JsData.get, hname, hlook, isTruthy, JsValue.ofString, hv, bind,
      Except.bind, pure, Except.pure]
  · have hnotfile : ¬ f.type = "file" := fun h => hv (hfile (htype ▸ h))
    obtain ⟨fname, ftype, fvalue⟩ := f
    obtain ⟨sname, stype, svalue⟩ := s
    simp only at hname htype hv hnotfile hlook
    simp [restoreField, JsData.get, hname, htype, hlook, isTruthy, JsValue.ofString, hv,
      setInputValue, hnotfile, bind, Except.bind]
    intro h
    exact absurd (htype ▸ h) hnotfile

theorem restoreInputs_saved (props : List (String × JsValue)) (sub fresh : List Field)
    (hlook : ∀ s ∈ sub, props.lookup s.name = some (JsValue.ofString s.value))
    (hfiles : ∀ s ∈ sub, s.type = "file" → s.value = "")
    (hfields : fresh.map (fun f => (f.name, f.type)) = sub.map (fun f => (f.name, f.type))) :
    restoreInputs (.object props) fresh =
      (List.zipWith (fun s f => if s.value = "" then f else s) sub fresh, none) := by
  induction sub generalizing fresh with
  | nil =>
    have : fresh = [] := by simpa using hfields
    subst this
    rfl
  | cons s sub ih =>
    cases fresh with
    | nil => simp at hfields
    | cons f fresh =>
      simp only [List.map_cons, List.cons.injEq, Prod.mk.injEq] at hfields
      have hone := restoreField_saved props s f (hlook s (List.mem_cons_self _ _))
        (hfiles s (List.mem_cons_self _ _)) hfields.1.1 hfields.1.2
      have hrest := ih fresh (fun x hx => hlook x (List.mem_cons_of_mem _ hx))
        (fun x hx => hfiles x (List.mem_cons_of_mem _ hx)) hfields.2
      simp [restoreInputs, hone, hrest]

/-- C3 (amended): for every form whose fields have distinct names, none of
them named `__proto__`, every assignment of values to them in which no file
input holds a file, and every fresh rendering of the same controls, when the
platform's JSON functions read the saved map back as written, running
`autoSaveForm` on the fresh form after an input event saved the map under the
same key raises nothing and leaves each field with the saved value if that
value is not empty, and with its rendered value if the saved value is empty. -/
theorem autoSaveForm_round_trip (json : JsonApi) (saved fresh : List Field)
    (storageKey : String) (storage : Storage)
    (hfields : fresh.map (fun f => (f.name, f.type)) = saved.map (fun f => (f.name, f.type)))
    (hdistinct : (saved.map Field.name).Nodup)
    (hproto : "__proto__" ∉ saved.map Field.name)
    (hfiles : ∀ s ∈ saved, s.type = "file" → s.value = "")
    (hreads : ReadsBack json (collectFields saved)) :
    autoSaveForm json fresh storageKey (inputListener json saved storageKey storage) =
      { inputs := List.zipWith (fun s f => if s.value = "" then f else s) saved fresh,
        console := [] } := by
  obtain ⟨hstringify, props, hparse, hmembers⟩ := hreads
  have hlook : ∀ s ∈ saved, props.lookup s.name = some (JsValue.ofString s.value) := by
    intro s hs
    apply hmembers (s.name, s.value)
    rw [collectFields_distinct saved hdistinct hproto]
    exact List.mem_map_of_mem (fun inp => (inp.name, inp.value)) hs
  unfold autoSaveForm inputListener
  simp only [getItem_setItem, ne_eq, hstringify, not_false_eq_true, if_true, loadSavedData,
    hparse, restoreInputs_saved props saved fresh hlook hfiles hfields]

/-- C3 as stated fails when a saved value is empty: the user clears a field
rendered with the value "Intern", the input event saves the empty string, and
on reload the field shows "Intern" again, not the saved value.  It also fails
on a form with a file input that holds a file when the draft is saved: on
reload the assignment to the file input raises, the loop ends, and the field
after it stays empty.  And it fails for a field named `__proto__`, which the
saved map never holds. -/
theorem autoSaveForm_round_trip_fails :
    autoSaveForm draftJson [{ name := "title", type := "text", value := "Intern" }]
      "internship-edit-7"
      (inputListener draftJson [{ name := "title", type := "text", value := "" }]
        "internship-edit-7" []) =
      { inputs := [{ name := "title", type := "text", value := "Intern" }], console := [] } ∧
    autoSaveForm draftJson
      [{ name := "a", type := "text", value := "" }, { name := "cv", type := "file", value := "" },
       { name := "b", type := "text", value := "" }] "k"
      (inputListener draftJson
        [{ name := "a", type := "text", value := "1" },
         { name := "cv", type := "file", value := "C:\\fakepath\\cv.pdf" },
         { name := "b", type := "text", value := "2" }] "k" []) =
      { inputs := [{ name := "a", type := "text", value := "1" },
          { name := "cv", type := "file", value := "" },
          { name := "b", type := "text", value := "" }],
        console := ["Error loading saved form data:"] } ∧
    autoSaveForm draftJson [{ name := "__proto__", type := "text", value := "" }] "k"
      (inputListener draftJson [{ name := "__proto__", type := "text", value := "1" }] "k" []) =
      { inputs := [{ name := "__proto__", type := "text", value := "[object Object]" }],
        console := [] } := by
  decide

/-- C3 (amended) at the field values a = "1", b = "2" saved and reloaded into
a form rendered with empty fields, with the reference JSON implementation:
the map is read back as written and both fields are repopulated. -/
theorem autoSaveForm_round_trip_witness :
    ReadsBack draftJson (collectFields
      [{ name := "a", type := "text", value := "1" },
       { name := "b", type := "text", value := "2" }]) ∧
    autoSaveForm draftJson
      [{ name := "a", type := "text", value := "" }, { name := "b", type := "text", value := "" }]
      "k"
      (inputListener draftJson
        [{ name := "a", type := "text", value := "1" },
         { name := "b", type := "text", value := "2" }] "k" []) =
      { inputs := [{ name := "a", type := "text", value := "1" },
          { name := "b", type := "text", value := "2" }],
        console := [] } :=
  have hreads : ReadsBack draftJson (collectFields
      [{ name := "a", type := "text", value := "1" },
       { name := "b", type := "text", value := "2" }]) :=
    ⟨by decide,
      [("a", JsValue.ofString "1"), ("b", JsValue.ofString "2")] ++ objectPrototypeMembers,
      by decide, by decide⟩
  ⟨hreads,
    autoSaveForm_round_trip draftJson
      [{ name := "a", type := "text", value := "1" },
       { name := "b", type := "text", value := "2" }]
      [{ name := "a", type := "text", value := "" }, { name := "b", type := "text", value := "" }]
      "k" [] (by decide) (by decide) (by decide) (by decide) hreads⟩

end MainJs
